import Mathlib

/-!
Verification development for the muon browser-profile importer
(src/brave/utility/importer/chrome_importer.cc).

The importer reads a Chrome-format user-data directory (History and Cookies
SQLite stores, the Bookmarks JSON tree, the Favicons store, the Login Data
credential store) and forwards normalized records to a sink (the
ImporterBridge).  This file gives a shallow embedding of that code:

* machine integers (int64_t) are modelled as Int; the C++ code performs
  truncating division, so Int.tdiv is used; overflow of int64_t is undefined
  behaviour in C++ and the theorems that depend on it carry explicit range
  hypotheses;
* base::Value JSON trees are modelled by a mutual inductive family
  (JsonValue / JsonList / JsonFields);
* std::stoll may throw (and the code never catches); a thrown exception is
  modelled by Option.none propagating out of the bookmark walk;
* the cancellation flag is owned by the host and polled by the importer; it
  is modelled as an oracle c : Nat → Bool consulted at successive poll
  indices, exactly one index per cancelled() call the C++ makes (&&
  short-circuiting included);
* the sink (ImporterBridge) is modelled by the ordered trace of events the
  importer sends to it;
* external collaborators (GURL validity, the data: scheme test, favicon
  re-encoding) are modelled as an explicit function record ExternalFns; GURL
  canonicalization is modelled as the identity on the stored string.
-/

/-! ## TimeCodec: ChromeImporter::chromeTimeToDouble

The C++ computes `((time * 10 - 0x19DB1DED53E8000) / 10000) / 1000` on
int64_t (truncating division) and only then converts to double; every value
the divisions can produce is below 2^53, so the conversion to double is
exact and the function is modelled as returning the integer itself. -/

def chromeTimeToDouble (time : Int) : Int :=
  ((time * 10 - 0x19DB1DED53E8000).tdiv 10000).tdiv 1000

/-- Modelled from the spec: the inverse direction of the TimeCodec, which the
repository does not contain (only `toUnixSeconds` alias `chromeTimeToDouble`
is in the source).  The spec fixes the source epoch as 1601-01-01 with
microsecond resolution rebased to Unix-epoch seconds, so the encoder maps a
Unix-seconds value t to the source integer timestamp
`(t + 11644473600) * 10^6`. -/
def encodeChromeTime (t : Int) : Int :=
  (t + 11644473600) * 1000000

/-! ## JSON model (base::Value / base::DictionaryValue / base::ListValue)

A mutual inductive family is used instead of `List JsonValue` nesting so
that the bookmark walker below is structurally recursive and computes by
kernel reduction. -/

mutual
inductive JsonValue where
  | str (s : String)
  | int (n : Int)
  | boolean (b : Bool)
  | null
  | list (items : JsonList)
  | dict (fields : JsonFields)
inductive JsonList where
  | nil
  | cons (v : JsonValue) (rest : JsonList)
inductive JsonFields where
  | nil
  | cons (key : String) (v : JsonValue) (rest : JsonFields)
end

/-- Key lookup in a dictionary value.  base::DictionaryValue stores unique
keys, so first-match lookup agrees with it. -/
def findKey : JsonFields → String → Option JsonValue
  | .nil, _ => none
  | .cons k v rest, key => if k = key then some v else findKey rest key

/-- base::DictionaryValue::GetString: on success the out-parameter receives
the string, otherwise it keeps its previous value; every caller in the
importer passes a default-initialized (empty) string, so the model returns
"" when the key is absent or not a string. -/
def getStringD (fields : JsonFields) (key : String) : String :=
  match findKey fields key with
  | some (.str s) => s
  | _ => ""

/-- base::DictionaryValue::GetDictionary. -/
def getDict (fields : JsonFields) (key : String) : Option JsonFields :=
  match findKey fields key with
  | some (.dict d) => some d
  | _ => none

/-- std::stoll: skip leading whitespace, optional sign, then a non-empty
maximal run of decimal digits; no conversion possible is an exception,
modelled as none.  (Out-of-range inputs also throw in C++; the int64 range
check is outside the modelled domain and all concrete inputs used below are
far inside it.) -/
def stoll (s : String) : Option Int :=
  let cs := s.data.dropWhile Char.isWhitespace
  let p : Bool × List Char :=
    match cs with
    | '-' :: r => (true, r)
    | '+' :: r => (false, r)
    | r => (false, r)
  let ds := p.2.takeWhile Char.isDigit
  if ds.isEmpty then none
  else
    let v : Int := Int.ofNat (ds.foldl (fun a c => a * 10 + (c.toNat - 48)) 0)
    some (if p.1 then -v else v)

/-! ## Bookmark entries and the tree walker
ChromeImporter::RecursiveReadBookmarksFolder. -/

/-- ImportedBookmarkEntry (chrome/common/importer/imported_bookmark_entry.h);
GURL fields are modelled by their spec string, times by the seconds value
produced through chromeTimeToDouble. -/
structure ImportedBookmarkEntry where
  in_toolbar : Bool
  is_folder : Bool
  url : String
  path : List String
  title : String
  creation_time : Int
deriving DecidableEq, Repr

mutual
/-- The body of RecursiveReadBookmarksFolder up to the GetList("children")
lookup: scan the fields of the folder dictionary for the first "children"
key; absent or non-list children means the function does nothing. -/
def walkFields : JsonFields → List String → Bool → Option (List ImportedBookmarkEntry)
  | .nil, _, _ => some []
  | .cons k v rest, parent_path, is_in_toolbar =>
      if k = "children" then
        match v with
        | .list cs => walkKids cs parent_path is_in_toolbar
        | _ => some []
      else walkFields rest parent_path is_in_toolbar

/-- The loop of RecursiveReadBookmarksFolder over the children list.  A
non-dictionary child is skipped (continue), a "folder" child emits a folder
entry and recurses with the path extended and is_in_toolbar forced to
false, a "url" child emits a leaf entry, anything else is skipped.  The
std::stoll call on date_added happens before the entry is pushed; its
exception (none) aborts the whole walk. -/
def walkKids : JsonList → List String → Bool → Option (List ImportedBookmarkEntry)
  | .nil, _, _ => some []
  | .cons c rest, parent_path, is_in_toolbar =>
      match c with
      | .dict fields =>
          let date_added := getStringD fields ("date_added")
          let name := getStringD fields ("name")
          let ty := getStringD fields ("type")
          let url := getStringD fields ("url")
          if ty = "folder" then
            match stoll date_added with
            | none => none
            | some t =>
                match walkFields fields (parent_path ++ [name]) false with
                | none => none
                | some sub =>
                    match walkKids rest parent_path is_in_toolbar with
                    | none => none
                    | some rs =>
                        some ({ in_toolbar := is_in_toolbar, is_folder := true, url := "",
                                path := parent_path, title := name,
                                creation_time := chromeTimeToDouble t } :: (sub ++ rs))
          else if ty = "url" then
            match stoll date_added with
            | none => none
            | some t =>
                match walkKids rest parent_path is_in_toolbar with
                | none => none
                | some rs =>
                    some ({ in_toolbar := is_in_toolbar, is_folder := false, url := url,
                            path := parent_path, title := name,
                            creation_time := chromeTimeToDouble t } :: rs)
          else walkKids rest parent_path is_in_toolbar
      | _ => walkKids rest parent_path is_in_toolbar
end

/-- ChromeImporter::RecursiveReadBookmarksFolder.  The C++ signature takes a
DictionaryValue*; a non-dictionary argument cannot occur there, and is
mapped to the do-nothing result. -/
def RecursiveReadBookmarksFolder (folder : JsonValue) (parent_path : List String)
    (is_in_toolbar : Bool) : Option (List ImportedBookmarkEntry) :=
  match folder with
  | .dict fields => walkFields fields parent_path is_in_toolbar
  | _ => some []

/-! ## Typed records for the remaining categories -/

/-- One row of the `urls` table of the History store, as read by the query
in ChromeImporter::ImportHistory (url, title, last_visit_time, typed_count,
visit_count) plus the `hidden` column the WHERE clause filters on. -/
structure HistoryUrlRow where
  url : String
  title : String
  last_visit_time : Int
  typed_count : Int
  visit_count : Int
  hidden : Int
deriving DecidableEq, Repr

/-- ImporterURLRow (chrome/common/importer/importer_url_row.h) as filled in
by ImportHistory; last_visit carries the seconds value produced through
chromeTimeToDouble. -/
structure ImporterURLRow where
  url : String
  title : String
  last_visit : Int
  hidden : Bool
  typed_count : Int
  visit_count : Int
deriving DecidableEq, Repr

/-- One row of the `cookies` table as read by ImportCookies (host_key, name,
value, path, expires_utc, secure, httponly, encrypted_value). -/
structure CookieRow where
  host_key : String
  name : String
  value : String
  path : String
  expires_utc : Int
  secure : Bool
  httponly : Bool
  encrypted_value : String
deriving DecidableEq, Repr

/-- ImportedCookieEntry (brave/common/importer/imported_cookie_entry.h) as
filled in by ImportCookies. -/
structure ImportedCookieEntry where
  domain : String
  name : String
  value : String
  host : String
  path : String
  expiry_date : Int
  secure : Bool
  httponly : Bool
deriving DecidableEq, Repr

/-- autofill::PasswordForm is forwarded verbatim and never inspected by the
importer; it is modelled as an opaque tagged record. -/
structure PasswordForm where
  data : String
deriving DecidableEq, Repr

/-- favicon_base::FaviconUsageData: favicon_url and png_data default to
empty; urls receives the page-URL set of the icon. -/
structure FaviconUsageData where
  favicon_url : String
  png_data : String
  urls : List String
deriving DecidableEq, Repr

/-- The two Favicons tables ImportBookmarks reads: `icon_mapping`
(icon_id, page_url) and `favicons` (id, url), each in rowid order. -/
structure FaviconDb where
  iconMapping : List (Int × String)
  favicons : List (Int × String)
deriving DecidableEq, Repr

/-- password_manager::LoginDatabase: GetAutofillableLogins and
GetBlacklistLogins each either succeed with a list of forms (in retrieval
order) or fail; failure is none. -/
structure LoginDatabase where
  autofillable : Option (List PasswordForm)
  blacklisted : Option (List PasswordForm)
deriving DecidableEq, Repr

/-- External collaborators consumed by the importer: GURL validity, the
GURL data:-scheme test, and importer::ReencodeFavicon.  ReencodeFavicon is
applied to the bytes ColumnBlobAsVector reads from the favicon `url`
column (for a TEXT column SQLite hands back the text bytes), so it is
modelled on the column string. -/
structure ExternalFns where
  gurlIsValid : String → Bool
  gurlIsDataScheme : String → Bool
  reencodeFavicon : String → Option String

/-- The four import categories handled by StartImport, in the order the
code runs them. -/
inductive ImportItem where
  | history
  | favorites
  | cookies
  | passwords
deriving DecidableEq, Repr

/-- One call on the ImporterBridge sink, in the order the importer makes
them. -/
inductive SinkEvent where
  | started
  | ended
  | itemStarted (item : ImportItem)
  | itemEnded (item : ImportItem)
  | setHistoryItems (rows : List ImporterURLRow)
  | addBookmarks (entries : List ImportedBookmarkEntry) (folderName : String)
  | setFavicons (usages : List FaviconUsageData)
  | setCookies (cookies : List ImportedCookieEntry)
  | setPasswordForm (form : PasswordForm)
deriving DecidableEq, Repr

/-- The requested item bitmask, restricted to the four bits StartImport
tests. -/
structure ItemMask where
  history : Bool
  favorites : Bool
  cookies : Bool
  passwords : Bool
deriving DecidableEq, Repr

/-- The on-disk source profile as the importer sees it.  For each store,
none covers both a missing file and a failed open/parse (the code treats
them identically: that category contributes nothing).  bookmarksJson is
the base::JSONReader::Read result of the Bookmarks file content; loginDb is
none when LoginDatabase::Init fails. -/
structure SourceProfile where
  historyDb : Option (List HistoryUrlRow)
  bookmarksJson : Option JsonValue
  faviconsDb : Option FaviconDb
  cookiesDb : Option (List CookieRow)
  loginDb : Option LoginDatabase

/-! ## Row loops with per-row cancellation polling

Both ImportHistory and ImportCookies run `while (s.Step() && !cancelled())`:
when a row is available the flag is polled once; a set flag leaves the loop
with the rows collected so far, discarding the row just stepped to and all
later ones.  The poll counter k numbers the cancelled() calls. -/

def rowLoop (c : Nat → Bool) (f : α → β) : List α → Nat → List β × Nat
  | [], k => ([], k)
  | r :: rest, k =>
      if c k then ([], k + 1)
      else
        let p := rowLoop c f rest (k + 1)
        (f r :: p.1, p.2)

/-- Conversion of one urls-table row to an ImporterURLRow, exactly the loop
body of ImportHistory (row.hidden is assigned false unconditionally). -/
def convertUrlRow (r : HistoryUrlRow) : ImporterURLRow :=
  { url := r.url, title := r.title,
    last_visit := chromeTimeToDouble r.last_visit_time,
    hidden := false, typed_count := r.typed_count, visit_count := r.visit_count }

/-- ChromeImporter::ImportHistory.  The SQL query selects only rows with
`hidden = 0`; after the loop the rows are delivered only when non-empty and
the flag is (polled again and) unset. -/
def importHistory (c : Nat → Bool) (db : Option (List HistoryUrlRow)) (k : Nat) :
    List SinkEvent × Nat :=
  match db with
  | none => ([], k)
  | some rows =>
      let q := rows.filter (fun r => r.hidden = 0)
      let p := rowLoop c convertUrlRow q k
      if p.1.isEmpty then ([], p.2)
      else if c p.2 then ([], p.2 + 1)
      else ([SinkEvent.setHistoryItems p.1], p.2 + 1)

/-- Conversion of one cookies-table row, exactly the loop body of
ImportCookies: host is the host_key prefixed with "*". -/
def convertCookieRow (r : CookieRow) : ImportedCookieEntry :=
  { domain := r.host_key, name := r.name, value := r.value,
    host := "*" ++ r.host_key, path := r.path,
    expiry_date := chromeTimeToDouble r.expires_utc,
    secure := r.secure, httponly := r.httponly }

/-- ChromeImporter::ImportCookies.  The SQL query keeps only rows whose
encrypted_value column has length 0. -/
def importCookies (c : Nat → Bool) (db : Option (List CookieRow)) (k : Nat) :
    List SinkEvent × Nat :=
  match db with
  | none => ([], k)
  | some rows =>
      let q := rows.filter (fun r => r.encrypted_value = "")
      let p := rowLoop c convertCookieRow q k
      if p.1.isEmpty then ([], p.2)
      else if c p.2 then ([], p.2 + 1)
      else ([SinkEvent.setCookies p.1], p.2 + 1)

/-! ## Passwords (the non-USE_X11 branch of ImportPasswords, which the
claims reference): LoginDatabase::Init failure returns early; each of the
two retrieval calls is guarded by its own success flag, and every retrieved
form is forwarded by an individual SetPasswordForm call. -/

/-- The `for` loop forwarding one SetPasswordForm call per form. -/
def emitForms : List PasswordForm → List SinkEvent
  | [] => []
  | f :: fs => SinkEvent.setPasswordForm f :: emitForms fs

/-- ChromeImporter::ImportPasswords. -/
def importPasswords (db : Option LoginDatabase) : List SinkEvent :=
  match db with
  | none => []
  | some d =>
      (match d.autofillable with
       | some forms => emitForms forms
       | none => []) ++
      (match d.blacklisted with
       | some forms => emitForms forms
       | none => [])

/-! ## Favicons: ImportFaviconURLs and LoadFaviconData

favicon_map is a std::map<int64_t, std::set<GURL>>: iteration is ordered by
icon id, and each page-URL set is ordered and duplicate-free.  GURL order
is modelled as lexicographic order on the (identity-canonicalized) spec
string, matching std::string comparison for the ASCII URLs involved. -/

/-- Lexicographic comparison of strings by code point, used to model the
std::set<GURL> ordering (it kernel-reduces, unlike String.lt). -/
def charListLt : List Char → List Char → Bool
  | _, [] => false
  | [], _ :: _ => true
  | a :: as, b :: bs =>
      if a.toNat < b.toNat then true
      else if b.toNat < a.toNat then false
      else charListLt as bs

/-- std::set<GURL>::insert: keep the set sorted and duplicate-free. -/
def setInsert : List String → String → List String
  | [], u => [u]
  | x :: xs, u =>
      if charListLt u.data x.data then u :: x :: xs
      else if u = x then x :: xs
      else x :: setInsert xs u

/-- The favicon map: icon id to page-URL set, in ascending id order. -/
abbrev FaviconMap := List (Int × List String)

/-- std::map operator[] followed by std::set insert:
`(*favicon_map)[icon_id].insert(url)`. -/
def faviconMapInsert : FaviconMap → Int → String → FaviconMap
  | [], id, u => [(id, setInsert [] u)]
  | (i, us) :: rest, id, u =>
      if id < i then (id, setInsert [] u) :: (i, us) :: rest
      else if id = i then (i, setInsert us u) :: rest
      else (i, us) :: faviconMapInsert rest id u

/-- ChromeImporter::ImportFaviconURLs: iterate the icon_mapping rows with
the same `while (s.Step() && !cancelled())` polling as the other row loops,
inserting each (icon_id, page_url) pair into the map. -/
def importFaviconURLs (c : Nat → Bool) : List (Int × String) → FaviconMap → Nat →
    FaviconMap × Nat
  | [], m, k => (m, k)
  | (id, u) :: rest, m, k =>
      if c k then (m, k + 1)
      else importFaviconURLs c rest (faviconMapInsert m id u) (k + 1)

/-- The prepared statement `SELECT url FROM favicons WHERE id = ?`: the
first matching row, in rowid order. -/
def lookupIcon : List (Int × String) → Int → Option String
  | [], _ => none
  | (i, u) :: rest, id => if i = id then some u else lookupIcon rest id

/-- ChromeImporter::LoadFaviconData: for every icon id of the map (in map
order), look its url column up; an absent row, an invalid URL, an empty
blob or a failed re-encode each skip that single icon (continue), a valid
remote URL is recorded as-is, and a valid data: URL records the re-encoded
png bytes.  The usage record carries the full page-URL set of the icon. -/
def loadFaviconData (ext : ExternalFns) (ftable : List (Int × String)) :
    FaviconMap → List FaviconUsageData
  | [] => []
  | (id, us) :: rest =>
      match lookupIcon ftable id with
      | none => loadFaviconData ext ftable rest
      | some u =>
          if ext.gurlIsValid u then
            if ext.gurlIsDataScheme u then
              if u = "" then loadFaviconData ext ftable rest
              else
                match ext.reencodeFavicon u with
                | none => loadFaviconData ext ftable rest
                | some png =>
                    { favicon_url := "", png_data := png, urls := us } ::
                      loadFaviconData ext ftable rest
            else
              { favicon_url := u, png_data := "", urls := us } ::
                loadFaviconData ext ftable rest
          else loadFaviconData ext ftable rest

/-! ## ChromeImporter::ImportBookmarks

Control flow of the C++: read and parse the Bookmarks file; bail out unless
the parse produced a dictionary; walk roots.bookmark_bar (in-toolbar true)
then roots.other (in-toolbar false); deliver the entries if non-empty and
not cancelled; then, only if the Favicons store exists and opens, build the
favicon map and deliver the resolved favicons if the map is non-empty and
not cancelled.  A std::stoll abort inside either walk escapes the whole
function (none). -/

/-- The roots part of ImportBookmarks: walk roots.bookmark_bar with
in-toolbar true and path seeded with its name, then roots.other with
in-toolbar false; the bookmarks vector is their concatenation, and a
std::stoll abort in either walk escapes. -/
def readBookmarksRoots (bd : JsonFields) : Option (List ImportedBookmarkEntry) :=
  match getDict bd ("roots") with
  | none => some []
  | some roots =>
      match getDict roots ("bookmark_bar") with
      | none =>
          match getDict roots ("other") with
          | none => some []
          | some other =>
              RecursiveReadBookmarksFolder (JsonValue.dict other)
                [getStringD other ("name")] false
      | some bb =>
          match RecursiveReadBookmarksFolder (JsonValue.dict bb)
              [getStringD bb ("name")] true with
          | none => none
          | some e1 =>
              match getDict roots ("other") with
              | none => some e1
              | some other =>
                  match RecursiveReadBookmarksFolder (JsonValue.dict other)
                      [getStringD other ("name")] false with
                  | none => none
                  | some e2 => some (e1 ++ e2)

/-- The favicon phase at the end of ImportBookmarks: nothing unless the
Favicons store exists and opens; then build the favicon map (with per-row
polling) and deliver the resolved icons when the map is non-empty and the
flag is (polled once more and) unset. -/
def faviconEvents (ext : ExternalFns) (c : Nat → Bool) (favdb : Option FaviconDb)
    (k : Nat) : List SinkEvent × Nat :=
  match favdb with
  | none => ([], k)
  | some fdb =>
      let fm := importFaviconURLs c fdb.iconMapping [] k
      if fm.1.isEmpty then ([], fm.2)
      else if c fm.2 then ([], fm.2 + 1)
      else ([SinkEvent.setFavicons (loadFaviconData ext fdb.favicons fm.1)], fm.2 + 1)

def importBookmarks (ext : ExternalFns) (c : Nat → Bool) (bjson : Option JsonValue)
    (favdb : Option FaviconDb) (k : Nat) : Option (List SinkEvent × Nat) :=
  match bjson with
  | some (JsonValue.dict bd) =>
      match readBookmarksRoots bd with
      | none => none
      | some bookmarks =>
          let ev1k1 : List SinkEvent × Nat :=
            if bookmarks.isEmpty then ([], k)
            else if c k then ([], k + 1)
            else ([SinkEvent.addBookmarks bookmarks ("Imported from Chrome")], k + 1)
          let fv := faviconEvents ext c favdb ev1k1.2
          some (ev1k1.1 ++ fv.1, fv.2)
  | _ => some ([], k)

/-! ## ChromeImporter::StartImport

Each category step is guarded by `(items & BIT) && !cancelled()`: the flag
is polled only when the bit is set.  A step that runs is bracketed by
NotifyItemStarted / NotifyItemEnded.  The bookmark walk abort escapes
StartImport (crashed = true): NotifyItemStarted(FAVORITES) has already been
sent, nothing afterwards (NotifyEnded included) is. -/

def historyStep (c : Nat → Bool) (items : ItemMask) (p : SourceProfile) (k : Nat) :
    List SinkEvent × Nat :=
  if items.history then
    if c k then ([], k + 1)
    else
      let r := importHistory c p.historyDb (k + 1)
      (SinkEvent.itemStarted ImportItem.history :: r.1 ++
        [SinkEvent.itemEnded ImportItem.history], r.2)
  else ([], k)

def favoritesStep (ext : ExternalFns) (c : Nat → Bool) (items : ItemMask)
    (p : SourceProfile) (k : Nat) : List SinkEvent × Nat × Bool :=
  if items.favorites then
    if c k then ([], k + 1, false)
    else
      match importBookmarks ext c p.bookmarksJson p.faviconsDb (k + 1) with
      | none => ([SinkEvent.itemStarted ImportItem.favorites], k + 1, true)
      | some r =>
          (SinkEvent.itemStarted ImportItem.favorites :: r.1 ++
            [SinkEvent.itemEnded ImportItem.favorites], r.2, false)
  else ([], k, false)

def cookiesStep (c : Nat → Bool) (items : ItemMask) (p : SourceProfile) (k : Nat) :
    List SinkEvent × Nat :=
  if items.cookies then
    if c k then ([], k + 1)
    else
      let r := importCookies c p.cookiesDb (k + 1)
      (SinkEvent.itemStarted ImportItem.cookies :: r.1 ++
        [SinkEvent.itemEnded ImportItem.cookies], r.2)
  else ([], k)

def passwordsStep (c : Nat → Bool) (items : ItemMask) (p : SourceProfile) (k : Nat) :
    List SinkEvent × Nat :=
  if items.passwords then
    if c k then ([], k + 1)
    else
      (SinkEvent.itemStarted ImportItem.passwords :: importPasswords p.loginDb ++
        [SinkEvent.itemEnded ImportItem.passwords], k + 1)
  else ([], k)

/-- ChromeImporter::StartImport.  Returns the sink trace and whether the
run was torn down by the bookmark-walk abort (in which case NotifyEnded was
never reached). -/
def startImport (ext : ExternalFns) (c : Nat → Bool) (items : ItemMask)
    (p : SourceProfile) : List SinkEvent × Bool :=
  let h := historyStep c items p 0
  let f := favoritesStep ext c items p h.2
  if f.2.2 then (SinkEvent.started :: (h.1 ++ f.1), true)
  else
    let co := cookiesStep c items p f.2.1
    let pw := passwordsStep c items p co.2
    (SinkEvent.started :: (h.1 ++ f.1 ++ co.1 ++ pw.1 ++ [SinkEvent.ended]), false)

/-! ## Helper lemmas -/

theorem rowLoop_mem {c : Nat → Bool} {f : α → β} :
    ∀ {rows : List α} {k : Nat} {b : β}, b ∈ (rowLoop c f rows k).1 →
      ∃ r ∈ rows, b = f r := by
  intro rows
  induction rows with
  | nil => intro k b h; simp [rowLoop] at h
  | cons r rest ih =>
      intro k b h
      by_cases hc : c k
      · simp [rowLoop, hc] at h
      · simp only [rowLoop, hc] at h
        simp at h
        rcases h with h | h
        · exact ⟨r, by simp, h⟩
        · obtain ⟨r0, hr0, hb⟩ := ih h
          exact ⟨r0, by simp [hr0], hb⟩

theorem rowLoop_take {c : Nat → Bool} {f : α → β} :
    ∀ {rows : List α} {k : Nat},
      (rowLoop c f rows k).1 = (rows.map f).take (rowLoop c f rows k).1.length := by
  intro rows
  induction rows with
  | nil => intro k; simp [rowLoop]
  | cons r rest ih =>
      intro k
      by_cases hc : c k
      · simp [rowLoop, hc]
      · simp only [rowLoop, hc]
        simp [List.take_succ_cons]
        exact ih

theorem rowLoop_k_le {c : Nat → Bool} {f : α → β} :
    ∀ {rows : List α} {k : Nat}, k ≤ (rowLoop c f rows k).2 := by
  intro rows
  induction rows with
  | nil => intro k; simp [rowLoop]
  | cons r rest ih =>
      intro k
      by_cases hc : c k
      · simp [rowLoop, hc]
      · simp only [rowLoop, hc]
        simp
        exact le_trans (Nat.le_succ k) ih

theorem rowLoop_early {c : Nat → Bool} {f : α → β} :
    ∀ {rows : List α} {k : Nat},
      (rowLoop c f rows k).1.length < rows.length →
      ∃ m, m < (rowLoop c f rows k).2 ∧ c m = true := by
  intro rows
  induction rows with
  | nil => intro k h; simp [rowLoop] at h
  | cons r rest ih =>
      intro k h
      by_cases hc : c k
      · refine ⟨k, ?_, hc⟩
        simp [rowLoop, hc]
      · simp only [rowLoop, hc] at h ⊢
        simp at h ⊢
        obtain ⟨m, hm, hcm⟩ := ih h
        exact ⟨m, hm, hcm⟩

theorem emitForms_eq_map : ∀ fs : List PasswordForm,
    emitForms fs = fs.map SinkEvent.setPasswordForm := by
  intro fs
  induction fs with
  | nil => rfl
  | cons f rest ih => simp [emitForms, ih]

/-! ## Trace classification and segment shape -/

/-- The constantly-unset cancellation flag. -/
def cFalse : Nat → Bool := fun _ => false

/-- A flag that the host sets just before poll index n (monotone). -/
def cAfter (n : Nat) : Nat → Bool := fun i => decide (n ≤ i)

/-- Events that deliver data records, as opposed to lifecycle signals. -/
def isDataEvent : SinkEvent → Bool
  | .started => false
  | .ended => false
  | .itemStarted _ => false
  | .itemEnded _ => false
  | _ => true

/-- A category segment of the StartImport trace: either skipped entirely,
or bracketed by its own itemStarted / itemEnded with only data deliveries
in between. -/
def segOk (s : List SinkEvent) (i : ImportItem) : Prop :=
  s = [] ∨ ∃ mid, s = SinkEvent.itemStarted i :: (mid ++ [SinkEvent.itemEnded i]) ∧
    ∀ e ∈ mid, isDataEvent e = true

theorem rowLoop_nocancel {f : α → β} :
    ∀ {rows : List α} {k : Nat}, rowLoop cFalse f rows k = (rows.map f, k + rows.length) := by
  intro rows
  induction rows with
  | nil => intro k; simp [rowLoop]
  | cons r rest ih =>
      intro k
      simp [rowLoop, cFalse, ih]
      omega

theorem importHistory_data {c : Nat → Bool} {db : Option (List HistoryUrlRow)} {k : Nat} :
    ∀ e ∈ (importHistory c db k).1, isDataEvent e = true := by
  intro e he
  cases db with
  | none => simp [importHistory] at he
  | some rows =>
      simp only [importHistory] at he
      split at he
      · simp at he
      · split at he
        · simp at he
        · simp at he
          subst he
          rfl

theorem importCookies_data {c : Nat → Bool} {db : Option (List CookieRow)} {k : Nat} :
    ∀ e ∈ (importCookies c db k).1, isDataEvent e = true := by
  intro e he
  cases db with
  | none => simp [importCookies] at he
  | some rows =>
      simp only [importCookies] at he
      split at he
      · simp at he
      · split at he
        · simp at he
        · simp at he
          subst he
          rfl

theorem emitForms_data : ∀ {fs : List PasswordForm} {e : SinkEvent},
    e ∈ emitForms fs → isDataEvent e = true := by
  intro fs
  induction fs with
  | nil => intro e he; simp [emitForms] at he
  | cons f rest ih =>
      intro e he
      simp only [emitForms, List.mem_cons] at he
      rcases he with he | he
      · subst he; rfl
      · exact ih he

theorem importPasswords_data {db : Option LoginDatabase} :
    ∀ e ∈ importPasswords db, isDataEvent e = true := by
  intro e he
  cases db with
  | none => simp [importPasswords] at he
  | some d =>
      simp only [importPasswords, List.mem_append] at he
      rcases he with he | he
      · rcases h : d.autofillable with _ | forms <;> rw [h] at he
        · simp at he
        · exact emitForms_data he
      · rcases h : d.blacklisted with _ | forms <;> rw [h] at he
        · simp at he
        · exact emitForms_data he

theorem faviconEvents_data {ext : ExternalFns} {c : Nat → Bool} {favdb : Option FaviconDb}
    {k : Nat} : ∀ e ∈ (faviconEvents ext c favdb k).1, isDataEvent e = true := by
  intro e he
  cases favdb with
  | none => simp [faviconEvents] at he
  | some fdb =>
      simp only [faviconEvents] at he
      split at he
      · simp at he
      · split at he
        · simp at he
        · simp at he
          subst he
          rfl

theorem importBookmarks_data {ext : ExternalFns} {c : Nat → Bool} {bjson : Option JsonValue}
    {favdb : Option FaviconDb} {k : Nat} {r : List SinkEvent × Nat}
    (h : importBookmarks ext c bjson favdb k = some r) :
    ∀ e ∈ r.1, isDataEvent e = true := by
  intro e he
  rcases bjson with _ | v
  · simp [importBookmarks] at h
    rw [← h] at he
    simp at he
  · cases v with
    | dict bd =>
        simp only [importBookmarks] at h
        rcases hw : readBookmarksRoots bd with _ | bookmarks <;> rw [hw] at h
        · simp at h
        · simp only [Option.some.injEq] at h
          rw [← h] at he
          simp only [List.mem_append] at he
          rcases he with he | he
          · split at he
            · simp at he
            · split at he
              · simp at he
              · simp at he
                subst he
                rfl
          · exact faviconEvents_data e he
    | str s =>
        simp [importBookmarks] at h; rw [← h] at he; simp at he
    | int n =>
        simp [importBookmarks] at h; rw [← h] at he; simp at he
    | boolean b =>
        simp [importBookmarks] at h; rw [← h] at he; simp at he
    | null =>
        simp [importBookmarks] at h; rw [← h] at he; simp at he
    | list items =>
        simp [importBookmarks] at h; rw [← h] at he; simp at he

theorem importFaviconURLs_k_le {c : Nat → Bool} :
    ∀ {rows : List (Int × String)} {m : FaviconMap} {k : Nat},
      k ≤ (importFaviconURLs c rows m k).2 := by
  intro rows
  induction rows with
  | nil => intro m k; simp [importFaviconURLs]
  | cons r rest ih =>
      intro m k
      obtain ⟨id, u⟩ := r
      by_cases hc : c k
      · simp [importFaviconURLs, hc]
      · simp only [importFaviconURLs, hc]
        simp
        exact le_trans (Nat.le_succ k) ih

theorem importHistory_k_le {c : Nat → Bool} {db : Option (List HistoryUrlRow)} {k : Nat} :
    k ≤ (importHistory c db k).2 := by
  cases db with
  | none => simp [importHistory]
  | some rows =>
      simp only [importHistory]
      split
      · exact rowLoop_k_le
      · split <;> exact le_trans rowLoop_k_le (Nat.le_succ _)

theorem importCookies_k_le {c : Nat → Bool} {db : Option (List CookieRow)} {k : Nat} :
    k ≤ (importCookies c db k).2 := by
  cases db with
  | none => simp [importCookies]
  | some rows =>
      simp only [importCookies]
      split
      · exact rowLoop_k_le
      · split <;> exact le_trans rowLoop_k_le (Nat.le_succ _)

theorem faviconEvents_k_le {ext : ExternalFns} {c : Nat → Bool} {favdb : Option FaviconDb}
    {k : Nat} : k ≤ (faviconEvents ext c favdb k).2 := by
  cases favdb with
  | none => simp [faviconEvents]
  | some fdb =>
      simp only [faviconEvents]
      split
      · exact importFaviconURLs_k_le
      · split <;> exact le_trans importFaviconURLs_k_le (Nat.le_succ _)

theorem importBookmarks_k_le {ext : ExternalFns} {c : Nat → Bool} {bjson : Option JsonValue}
    {favdb : Option FaviconDb} {k : Nat} {r : List SinkEvent × Nat}
    (h : importBookmarks ext c bjson favdb k = some r) : k ≤ r.2 := by
  rcases bjson with _ | v
  · simp [importBookmarks] at h
    subst h
    simp
  · cases v with
    | dict bd =>
        simp only [importBookmarks] at h
        rcases hw : readBookmarksRoots bd with _ | bookmarks <;> rw [hw] at h
        · simp at h
        · simp only [Option.some.injEq] at h
          rw [← h]
          simp only
          split
          · exact faviconEvents_k_le
          · split <;> exact le_trans (Nat.le_succ k) faviconEvents_k_le
    | str s => simp [importBookmarks] at h; subst h; simp
    | int n => simp [importBookmarks] at h; subst h; simp
    | boolean b => simp [importBookmarks] at h; subst h; simp
    | null => simp [importBookmarks] at h; subst h; simp
    | list items => simp [importBookmarks] at h; subst h; simp

theorem historyStep_segOk {c : Nat → Bool} {items : ItemMask} {p : SourceProfile} {k : Nat} :
    segOk (historyStep c items p k).1 ImportItem.history := by
  by_cases hi : items.history
  · by_cases hc : c k
    · left; simp [historyStep, hi, hc]
    · right
      refine ⟨(importHistory c p.historyDb (k + 1)).1, by simp [historyStep, hi, hc], ?_⟩
      exact importHistory_data
  · left; simp [historyStep, hi]

theorem historyStep_k_le {c : Nat → Bool} {items : ItemMask} {p : SourceProfile} {k : Nat} :
    k ≤ (historyStep c items p k).2 := by
  by_cases hi : items.history
  · by_cases hc : c k
    · simp [historyStep, hi, hc]
    · simp only [historyStep, hi, hc]
      simp
      exact le_trans (Nat.le_succ k) importHistory_k_le
  · simp [historyStep, hi]

theorem favoritesStep_segOk {ext : ExternalFns} {c : Nat → Bool} {items : ItemMask}
    {p : SourceProfile} {k : Nat}
    (h : (favoritesStep ext c items p k).2.2 = false) :
    segOk (favoritesStep ext c items p k).1 ImportItem.favorites := by
  by_cases hi : items.favorites
  · by_cases hc : c k
    · left; simp [favoritesStep, hi, hc]
    · rcases hb : importBookmarks ext c p.bookmarksJson p.faviconsDb (k + 1) with _ | r
      · exfalso
        simp [favoritesStep, hi, hc, hb] at h
      · right
        refine ⟨r.1, by simp [favoritesStep, hi, hc, hb], ?_⟩
        exact importBookmarks_data hb
  · left; simp [favoritesStep, hi]

theorem favoritesStep_k_le {ext : ExternalFns} {c : Nat → Bool} {items : ItemMask}
    {p : SourceProfile} {k : Nat} : k ≤ (favoritesStep ext c items p k).2.1 := by
  by_cases hi : items.favorites
  · by_cases hc : c k
    · simp [favoritesStep, hi, hc]
    · rcases hb : importBookmarks ext c p.bookmarksJson p.faviconsDb (k + 1) with _ | r
      · simp [favoritesStep, hi, hc, hb]
      · simp only [favoritesStep, hi, hc, hb]
        simp
        exact le_trans (Nat.le_succ k) (importBookmarks_k_le hb)
  · simp [favoritesStep, hi]

theorem cookiesStep_segOk {c : Nat → Bool} {items : ItemMask} {p : SourceProfile} {k : Nat} :
    segOk (cookiesStep c items p k).1 ImportItem.cookies := by
  by_cases hi : items.cookies
  · by_cases hc : c k
    · left; simp [cookiesStep, hi, hc]
    · right
      refine ⟨(importCookies c p.cookiesDb (k + 1)).1, by simp [cookiesStep, hi, hc], ?_⟩
      exact importCookies_data
  · left; simp [cookiesStep, hi]

theorem cookiesStep_k_le {c : Nat → Bool} {items : ItemMask} {p : SourceProfile} {k : Nat} :
    k ≤ (cookiesStep c items p k).2 := by
  by_cases hi : items.cookies
  · by_cases hc : c k
    · simp [cookiesStep, hi, hc]
    · simp only [cookiesStep, hi, hc]
      simp
      exact le_trans (Nat.le_succ k) importCookies_k_le
  · simp [cookiesStep, hi]

theorem passwordsStep_segOk {c : Nat → Bool} {items : ItemMask} {p : SourceProfile} {k : Nat} :
    segOk (passwordsStep c items p k).1 ImportItem.passwords := by
  by_cases hi : items.passwords
  · by_cases hc : c k
    · left; simp [passwordsStep, hi, hc]
    · right
      refine ⟨importPasswords p.loginDb, by simp [passwordsStep, hi, hc], ?_⟩
      exact importPasswords_data
  · left; simp [passwordsStep, hi]

theorem segOk_not_ended {s : List SinkEvent} {i : ImportItem} (h : segOk s i) :
    SinkEvent.ended ∉ s := by
  rcases h with h | ⟨mid, hs, hmid⟩
  · subst h; simp
  · subst hs
    intro hm
    simp only [List.mem_cons, List.mem_append, List.mem_singleton, List.not_mem_nil, or_false] at hm
    rcases hm with hm | hm | hm
    · exact SinkEvent.noConfusion hm
    · have := hmid _ hm
      simp [isDataEvent] at this
    · exact SinkEvent.noConfusion hm

theorem segOk_not_started {s : List SinkEvent} {i : ImportItem} (h : segOk s i) :
    SinkEvent.started ∉ s := by
  rcases h with h | ⟨mid, hs, hmid⟩
  · subst h; simp
  · subst hs
    intro hm
    simp only [List.mem_cons, List.mem_append, List.mem_singleton, List.not_mem_nil, or_false] at hm
    rcases hm with hm | hm | hm
    · exact SinkEvent.noConfusion hm
    · have := hmid _ hm
      simp [isDataEvent] at this
    · exact SinkEvent.noConfusion hm

theorem segOk_itemStarted {s : List SinkEvent} {i j : ImportItem} (h : segOk s i)
    (hm : SinkEvent.itemStarted j ∈ s) : j = i := by
  rcases h with h | ⟨mid, hs, hmid⟩
  · subst h; simp at hm
  · subst hs
    simp only [List.mem_cons, List.mem_append, List.mem_singleton, List.not_mem_nil, or_false] at hm
    rcases hm with hm | hm | hm
    · exact (SinkEvent.itemStarted.injEq ..).mp hm
    · have := hmid _ hm
      simp [isDataEvent] at this
    · exact SinkEvent.noConfusion hm

theorem segOk_itemEnded {s : List SinkEvent} {i j : ImportItem} (h : segOk s i)
    (hm : SinkEvent.itemEnded j ∈ s) : j = i := by
  rcases h with h | ⟨mid, hs, hmid⟩
  · subst h; simp at hm
  · subst hs
    simp only [List.mem_cons, List.mem_append, List.mem_singleton, List.not_mem_nil, or_false] at hm
    rcases hm with hm | hm | hm
    · exact SinkEvent.noConfusion hm
    · have := hmid _ hm
      simp [isDataEvent] at this
    · exact (SinkEvent.itemEnded.injEq ..).mp hm

mutual
theorem walkFields_toolbar : ∀ (fs : JsonFields) (p : List String) (tb : Bool)
    (es : List ImportedBookmarkEntry), walkFields fs p tb = some es →
    ∀ e ∈ es, e.in_toolbar = true → tb = true ∧ e.path = p
  | .nil, p, tb, es, h => by
      simp only [walkFields, Option.some.injEq] at h
      subst h
      simp
  | .cons k (JsonValue.list cs) rest, p, tb, es, h => by
      by_cases hk : k = "children"
      · simp only [walkFields, if_pos hk] at h
        exact walkKids_toolbar cs p tb es h
      · simp only [walkFields, if_neg hk] at h
        exact walkFields_toolbar rest p tb es h
  | .cons k (JsonValue.str s) rest, p, tb, es, h => by
      by_cases hk : k = "children"
      · simp only [walkFields, if_pos hk, Option.some.injEq] at h
        subst h; simp
      · simp only [walkFields, if_neg hk] at h
        exact walkFields_toolbar rest p tb es h
  | .cons k (JsonValue.int n) rest, p, tb, es, h => by
      by_cases hk : k = "children"
      · simp only [walkFields, if_pos hk, Option.some.injEq] at h
        subst h; simp
      · simp only [walkFields, if_neg hk] at h
        exact walkFields_toolbar rest p tb es h
  | .cons k (JsonValue.boolean b) rest, p, tb, es, h => by
      by_cases hk : k = "children"
      · simp only [walkFields, if_pos hk, Option.some.injEq] at h
        subst h; simp
      · simp only [walkFields, if_neg hk] at h
        exact walkFields_toolbar rest p tb es h
  | .cons k JsonValue.null rest, p, tb, es, h => by
      by_cases hk : k = "children"
      · simp only [walkFields, if_pos hk, Option.some.injEq] at h
        subst h; simp
      · simp only [walkFields, if_neg hk] at h
        exact walkFields_toolbar rest p tb es h
  | .cons k (JsonValue.dict d) rest, p, tb, es, h => by
      by_cases hk : k = "children"
      · simp only [walkFields, if_pos hk, Option.some.injEq] at h
        subst h; simp
      · simp only [walkFields, if_neg hk] at h
        exact walkFields_toolbar rest p tb es h
termination_by fs _ _ _ _ => sizeOf fs
decreasing_by all_goals (simp_wf <;> omega)

theorem walkKids_toolbar : ∀ (cs : JsonList) (p : List String) (tb : Bool)
    (es : List ImportedBookmarkEntry), walkKids cs p tb = some es →
    ∀ e ∈ es, e.in_toolbar = true → tb = true ∧ e.path = p
  | .nil, p, tb, es, h => by
      simp only [walkKids, Option.some.injEq] at h
      subst h
      simp
  | .cons (JsonValue.dict fields) rest, p, tb, es, h => by
      simp only [walkKids] at h
      by_cases hf : getStringD fields ("type") = "folder"
      · rw [if_pos hf] at h
        rcases hst : stoll (getStringD fields ("date_added")) with _ | t <;>
          rw [hst] at h
        · exact absurd h (by simp)
        · rcases hsub : walkFields fields (p ++ [getStringD fields ("name")]) false
              with _ | sub <;> rw [hsub] at h
          · exact absurd h (by simp)
          · rcases hrs : walkKids rest p tb with _ | rs <;> rw [hrs] at h
            · exact absurd h (by simp)
            · simp only [Option.some.injEq] at h
              subst h
              intro e he htb
              simp only [List.mem_cons, List.mem_append] at he
              rcases he with he | he | he
              · subst he
                exact ⟨htb, rfl⟩
              · exact absurd (walkFields_toolbar fields _ false _ hsub e he htb).1
                  (by simp)
              · exact walkKids_toolbar rest p tb rs hrs e he htb
      · rw [if_neg hf] at h
        by_cases hu : getStringD fields ("type") = "url"
        · rw [if_pos hu] at h
          rcases hst : stoll (getStringD fields ("date_added")) with _ | t <;>
            rw [hst] at h
          · exact absurd h (by simp)
          · rcases hrs : walkKids rest p tb with _ | rs <;> rw [hrs] at h
            · exact absurd h (by simp)
            · simp only [Option.some.injEq] at h
              subst h
              intro e he htb
              simp only [List.mem_cons] at he
              rcases he with he | he
              · subst he
                exact ⟨htb, rfl⟩
              · exact walkKids_toolbar rest p tb rs hrs e he htb
        · rw [if_neg hu] at h
          exact walkKids_toolbar rest p tb es h
  | .cons (JsonValue.str s) rest, p, tb, es, h => by
      simp only [walkKids] at h
      exact walkKids_toolbar rest p tb es h
  | .cons (JsonValue.int n) rest, p, tb, es, h => by
      simp only [walkKids] at h
      exact walkKids_toolbar rest p tb es h
  | .cons (JsonValue.boolean b) rest, p, tb, es, h => by
      simp only [walkKids] at h
      exact walkKids_toolbar rest p tb es h
  | .cons JsonValue.null rest, p, tb, es, h => by
      simp only [walkKids] at h
      exact walkKids_toolbar rest p tb es h
  | .cons (JsonValue.list items) rest, p, tb, es, h => by
      simp only [walkKids] at h
      exact walkKids_toolbar rest p tb es h
termination_by cs _ _ _ _ => sizeOf cs
decreasing_by all_goals (simp_wf <;> omega)
end

/-! ## Concrete fixtures used by witnesses and counterexamples -/

/-- A concrete external-function record: every URL valid, none with the
data: scheme, re-encoding always failing (never consulted for remote
URLs). -/
def extRemote : ExternalFns :=
  { gurlIsValid := fun _ => true, gurlIsDataScheme := fun _ => false,
    reencodeFavicon := fun _ => none }

def sampleLeaf : JsonValue :=
  .dict (.cons ("type") (.str "url") (.cons ("name") (.str "Leaf")
    (.cons ("url") (.str "http://leaf.example/")
      (.cons ("date_added") (.str "13000000000000000") .nil))))

def sampleSub : JsonValue :=
  .dict (.cons ("type") (.str "folder") (.cons ("name") (.str "Sub")
    (.cons ("date_added") (.str "13000000000000000")
      (.cons ("children") (.list (.cons sampleLeaf .nil)) .nil))))

/-- A bookmark_bar root holding one sub-folder holding one url leaf. -/
def sampleBar : JsonValue :=
  .dict (.cons ("name") (.str "Bookmarks bar")
    (.cons ("children") (.list (.cons sampleSub .nil)) .nil))

/-- The entry the walk emits for the sub-folder: in_toolbar is inherited
from the bookmark_bar invocation (true), the path is the bar name. -/
def sampleSubEntry : ImportedBookmarkEntry :=
  { in_toolbar := true, is_folder := true, url := "", path := ["Bookmarks bar"],
    title := "Sub", creation_time := chromeTimeToDouble 13000000000000000 }

/-- The entry the walk emits for the leaf: in_toolbar false (forced by the
recursive call), path [bar-name, sub-folder-name]. -/
def sampleLeafEntry : ImportedBookmarkEntry :=
  { in_toolbar := false, is_folder := false, url := "http://leaf.example/",
    path := ["Bookmarks bar", "Sub"], title := "Leaf",
    creation_time := chromeTimeToDouble 13000000000000000 }

/-- A url child whose date_added does not parse as an integer. -/
def badDateNode : JsonValue :=
  .dict (.cons ("type") (.str "url") (.cons ("name") (.str "Bad")
    (.cons ("url") (.str "http://bad.example/")
      (.cons ("date_added") (.str "notanumber") .nil))))

/-- A bookmark_bar root holding the bad-date node followed by a well-formed
leaf. -/
def c5Tree : JsonValue :=
  .dict (.cons ("name") (.str "Bookmarks bar")
    (.cons ("children") (.list (.cons badDateNode (.cons sampleLeaf .nil))) .nil))

/-- The same tree without the bad-date node. -/
def c5CleanTree : JsonValue :=
  .dict (.cons ("name") (.str "Bookmarks bar")
    (.cons ("children") (.list (.cons sampleLeaf .nil)) .nil))

/-! ## C3 -/

/-- C3: for every source integer timestamp t the conversion returns exactly
`((t * 10 - 11644473600*10^7) / 10000) / 1000` in truncating integer
arithmetic (the hex constant 0x19DB1DED53E8000 of the source equals the
decimal 11644473600*10^7); the fixture source timestamp 12879119098092474
maps to Unix seconds 1234645498, which is its documented real-world date
2009-02-14 21:04:58 UTC; and toUnixSeconds(encode(t)) = t on the domain of
Unix-second values whose encoding stays inside int64 (the stated bound
|t| ≤ 8*10^11 keeps every intermediate well inside the defined range). -/
theorem C3_time_codec_exact :
    (∀ t : Int, chromeTimeToDouble t =
        ((t * 10 - 11644473600 * 10 ^ 7).tdiv 10000).tdiv 1000)
    ∧ chromeTimeToDouble 12879119098092474 = 1234645498
    ∧ (∀ t : Int, -800000000000 ≤ t → t ≤ 800000000000 →
        chromeTimeToDouble (encodeChromeTime t) = t) := by
  refine ⟨fun t => by norm_num [chromeTimeToDouble], by decide, fun t h1 h2 => ?_⟩
  unfold chromeTimeToDouble encodeChromeTime
  have h3 : (t + 11644473600) * 1000000 * 10 - 0x19DB1DED53E8000 =
      (t * 1000) * 10000 := by ring_nf
  rw [h3, Int.mul_tdiv_cancel _ (by norm_num), Int.mul_tdiv_cancel _ (by norm_num)]

/-- C3 witness: the exact-roundtrip part applied at the fixture date. -/
theorem C3_witness :
    (-800000000000 : Int) ≤ 1234645498 ∧ (1234645498 : Int) ≤ 800000000000 ∧
      chromeTimeToDouble (encodeChromeTime 1234645498) = 1234645498 :=
  ⟨by decide, by decide, C3_time_codec_exact.2.2 1234645498 (by decide) (by decide)⟩

/-! ## C1 -/

/-- C1 counterexample: on a bookmark_bar root holding one sub-folder
holding one url leaf, the walk (invoked as ImportBookmarks does, with path
[bar-name] and in-toolbar true) produces 2 entries, not 3 — the root
folder itself is never emitted — and the sub-folder entry carries
in_toolbar = true, not false. -/
theorem C1_counterexample :
    RecursiveReadBookmarksFolder sampleBar ["Bookmarks bar"] true =
        some [sampleSubEntry, sampleLeafEntry] ∧
    (RecursiveReadBookmarksFolder sampleBar ["Bookmarks bar"] true).map List.length ≠
        some 3 ∧
    sampleSubEntry.in_toolbar = true := by
  exact ⟨by decide, by decide, rfl⟩

/-- C1 amended: the walk over that tree produces exactly 2 entries in
pre-order — the sub-folder with in_toolbar = true (the bar root in-toolbar
flag applies to the immediate children of the root, not to the root
itself, which is never emitted), then the leaf with in_toolbar = false —
and the leaf path equals [bookmark_bar-name, sub-folder-name].  In
general, an invocation with in-toolbar false (the "other" root) marks no
entry in_toolbar, and an invocation with in-toolbar true marks exactly the
entries of the immediate children (those whose recorded path is the root
path); deeper descendants get false per the recursive call signature. -/
theorem C1_walker_amended :
    (RecursiveReadBookmarksFolder sampleBar ["Bookmarks bar"] true =
        some [sampleSubEntry, sampleLeafEntry])
    ∧ (∀ cs p es, walkKids cs p false = some es → ∀ e ∈ es, e.in_toolbar = false)
    ∧ (∀ cs p tb es, walkKids cs p tb = some es → ∀ e ∈ es,
        e.in_toolbar = true → tb = true ∧ e.path = p) := by
  refine ⟨by decide, ?_, fun cs p tb es h => walkKids_toolbar cs p tb es h⟩
  intro cs p es h e he
  by_cases hb : e.in_toolbar = true
  · exact absurd (walkKids_toolbar cs p false es h e he hb).1 (by simp)
  · simpa using hb

/-- C1 witness: the general parts applied to the sample tree — the leaf
walked under in-toolbar false is unmarked, and the sub-folder marked true
sits directly under the invocation path. -/
theorem C1_witness :
    sampleLeafEntry.in_toolbar = false ∧
    (true = true ∧ sampleSubEntry.path = ["Bookmarks bar"]) :=
  ⟨C1_walker_amended.2.1 (.cons sampleLeaf .nil) (["Bookmarks bar", "Sub"])
      [sampleLeafEntry] (by decide) sampleLeafEntry (by decide),
   C1_walker_amended.2.2 (.cons sampleSub .nil) (["Bookmarks bar"]) true
      [sampleSubEntry, sampleLeafEntry] (by decide) sampleSubEntry (by decide) (by decide)⟩

/-! ## C5 -/

/-- C5: the code does skip children that are not dictionaries or have a
missing/unrecognized type, but a folder/url node whose date_added fails to
parse makes std::stoll throw (the importer never catches), aborting the
whole walk: with the bad-date node present the walk produces nothing at
all, while without it the well-formed sibling leaf yields its entry. -/
theorem C5_bad_date_aborts_walk :
    RecursiveReadBookmarksFolder c5Tree ["Bookmarks bar"] true = none ∧
    RecursiveReadBookmarksFolder c5CleanTree ["Bookmarks bar"] true =
      some [{ in_toolbar := true, is_folder := false, url := "http://leaf.example/",
              path := ["Bookmarks bar"], title := "Leaf",
              creation_time := chromeTimeToDouble 13000000000000000 }] := by
  exact ⟨by decide, by decide⟩

/-! ## C2 -/

def histRow1 : HistoryUrlRow :=
  { url := "http://one.example/", title := "One", last_visit_time := 13000000000000000,
    typed_count := 1, visit_count := 2, hidden := 0 }

def histRow2 : HistoryUrlRow :=
  { url := "http://two.example/", title := "Two", last_visit_time := 13000000000000000,
    typed_count := 0, visit_count := 1, hidden := 0 }

def cookieRowPlain : CookieRow :=
  { host_key := ".one.example", name := "a", value := "1", path := "/",
    expires_utc := 13000000000000000, secure := false, httponly := true,
    encrypted_value := "" }

def cookieRowPlain2 : CookieRow :=
  { host_key := ".two.example", name := "b", value := "2", path := "/",
    expires_utc := 13000000000000000, secure := true, httponly := false,
    encrypted_value := "" }

def cookieRowEncrypted : CookieRow :=
  { host_key := ".enc.example", name := "c", value := "", path := "/",
    expires_utc := 13000000000000000, secure := false, httponly := false,
    encrypted_value := "v10ciphertext" }

/-- C2 counterexample: with a flag that becomes set after the first poll,
the history (resp. cookie) loop has collected one converted row — a
non-empty partial set — yet the delivery guard `!rows.empty() &&
!cancelled()` re-reads the still-set flag and nothing is delivered. -/
theorem C2_counterexample :
    (rowLoop (cAfter 1) convertUrlRow
        ([histRow1, histRow2].filter (fun r => r.hidden = 0)) 0).1 =
      [convertUrlRow histRow1] ∧
    (importHistory (cAfter 1) (some [histRow1, histRow2]) 0).1 = [] ∧
    (rowLoop (cAfter 1) convertCookieRow
        ([cookieRowPlain, cookieRowPlain2].filter (fun r => r.encrypted_value = "")) 0).1 =
      [convertCookieRow cookieRowPlain] ∧
    (importCookies (cAfter 1) (some [cookieRowPlain, cookieRowPlain2]) 0).1 = [] := by
  exact ⟨by decide, by decide, by decide, by decide⟩

/-- C2 amended: for history and cookies, if the (monotone) cancellation
flag becomes set mid-iteration, the iteration stops, the rows already
collected form a front segment of the converted query results (remaining
rows are discarded) — but the partial set is NOT delivered: the post-loop
guard polls the flag again, so a set collected under mid-iteration
cancellation never reaches the sink (delivery is all-or-nothing, not
partial). -/
theorem C2_cancellation_amended :
    ∀ (c : Nat → Bool), (∀ i j, i ≤ j → c i = true → c j = true) →
    ∀ (k : Nat),
    (∀ rows : List HistoryUrlRow,
      (rowLoop c convertUrlRow (rows.filter (fun r => r.hidden = 0)) k).1 =
        ((rows.filter (fun r => r.hidden = 0)).map convertUrlRow).take
          (rowLoop c convertUrlRow (rows.filter (fun r => r.hidden = 0)) k).1.length ∧
      ((rowLoop c convertUrlRow (rows.filter (fun r => r.hidden = 0)) k).1.length <
          (rows.filter (fun r => r.hidden = 0)).length →
        (importHistory c (some rows) k).1 = []))
    ∧ (∀ rows : List CookieRow,
      (rowLoop c convertCookieRow (rows.filter (fun r => r.encrypted_value = "")) k).1 =
        ((rows.filter (fun r => r.encrypted_value = "")).map convertCookieRow).take
          (rowLoop c convertCookieRow
            (rows.filter (fun r => r.encrypted_value = "")) k).1.length ∧
      ((rowLoop c convertCookieRow (rows.filter (fun r => r.encrypted_value = "")) k).1.length <
          (rows.filter (fun r => r.encrypted_value = "")).length →
        (importCookies c (some rows) k).1 = [])) := by
  intro c mono k
  constructor
  · intro rows
    refine ⟨rowLoop_take, ?_⟩
    intro hlen
    obtain ⟨m, hm, hcm⟩ := rowLoop_early hlen
    have hc2 : c (rowLoop c convertUrlRow (rows.filter (fun r => r.hidden = 0)) k).2 = true :=
      mono m _ (Nat.le_of_lt hm) hcm
    simp only [importHistory]
    by_cases he : (rowLoop c convertUrlRow (rows.filter (fun r => r.hidden = 0)) k).1.isEmpty
    · simp [he]
    · simp [he, hc2]
  · intro rows
    refine ⟨rowLoop_take, ?_⟩
    intro hlen
    obtain ⟨m, hm, hcm⟩ := rowLoop_early hlen
    have hc2 : c (rowLoop c convertCookieRow
        (rows.filter (fun r => r.encrypted_value = "")) k).2 = true :=
      mono m _ (Nat.le_of_lt hm) hcm
    simp only [importCookies]
    by_cases he : (rowLoop c convertCookieRow
        (rows.filter (fun r => r.encrypted_value = "")) k).1.isEmpty
    · simp [he]
    · simp [he, hc2]

/-- C2 witness: the amended theorem applied to the two-row stores under the
flag that is set from poll index 1 on. -/
theorem C2_witness :
    (importHistory (cAfter 1) (some [histRow1, histRow2]) 0).1 = [] ∧
    (importCookies (cAfter 1) (some [cookieRowPlain, cookieRowPlain2]) 0).1 = [] :=
  ⟨((C2_cancellation_amended (cAfter 1)
        (fun i j hij hi => by simp [cAfter] at hi ⊢; omega) 0).1
      [histRow1, histRow2]).2 (by decide),
   ((C2_cancellation_amended (cAfter 1)
        (fun i j hij hi => by simp [cAfter] at hi ⊢; omega) 0).2
      [cookieRowPlain, cookieRowPlain2]).2 (by decide)⟩

/-! ## C9 -/

/-- C9: a urls row with hidden = 1 never reaches the delivered output —
every delivered ImporterURLRow arises from a source row with hidden = 0
(the WHERE clause excludes the rest at the query) — and every delivered
row has its hidden flag set to false (assigned unconditionally). -/
theorem C9_history_hidden :
    ∀ (c : Nat → Bool) (rows : List HistoryUrlRow) (k : Nat) (out : List ImporterURLRow),
      SinkEvent.setHistoryItems out ∈ (importHistory c (some rows) k).1 →
      ∀ r ∈ out, r.hidden = false ∧
        ∃ src ∈ rows, src.hidden = 0 ∧ r = convertUrlRow src := by
  intro c rows k out hmem r hr
  simp only [importHistory] at hmem
  by_cases he : (rowLoop c convertUrlRow (rows.filter (fun r => r.hidden = 0)) k).1.isEmpty
  · simp [he] at hmem
  · by_cases hc : c (rowLoop c convertUrlRow (rows.filter (fun r => r.hidden = 0)) k).2
    · simp [he, hc] at hmem
    · simp [he, hc] at hmem
      subst hmem
      obtain ⟨src, hsrc, hrr⟩ := rowLoop_mem hr
      rw [List.mem_filter] at hsrc
      exact ⟨by rw [hrr]; rfl, src, hsrc.1, by simpa using hsrc.2, hrr⟩

/-- C9 witness: applied to a one-row store under no cancellation. -/
theorem C9_witness :
    (convertUrlRow histRow1).hidden = false ∧
    ∃ src ∈ [histRow1], src.hidden = 0 ∧ convertUrlRow histRow1 = convertUrlRow src :=
  C9_history_hidden cFalse [histRow1] 0 [convertUrlRow histRow1] (by decide)
    (convertUrlRow histRow1) (by decide)

/-! ## C6 -/

/-- C6: under no cancellation the cookie import delivers exactly the
conversions of the rows whose encrypted-value column is empty (the query
keeps only those): a row with a non-empty encrypted value never appears, a
row with an empty one always does, and every delivered entry satisfies
host = "*" ++ domain with domain equal to the source host_key. -/
theorem C6_cookie_filter :
    ∀ (rows : List CookieRow) (k : Nat),
      ((importCookies cFalse (some rows) k).1 =
        if ((rows.filter (fun r => r.encrypted_value = "")).map convertCookieRow).isEmpty
        then []
        else [SinkEvent.setCookies
          ((rows.filter (fun r => r.encrypted_value = "")).map convertCookieRow)])
      ∧ (∀ r ∈ rows, r.encrypted_value = "" →
          convertCookieRow r ∈
            (rows.filter (fun r => r.encrypted_value = "")).map convertCookieRow)
      ∧ (∀ out, SinkEvent.setCookies out ∈ (importCookies cFalse (some rows) k).1 →
          ∀ e ∈ out, e.host = "*" ++ e.domain ∧ e.domain ∈ rows.map CookieRow.host_key ∧
            ∃ src ∈ rows, src.encrypted_value = "" ∧ e = convertCookieRow src) := by
  intro rows k
  have hdef : (importCookies cFalse (some rows) k).1 =
      if ((rows.filter (fun r => r.encrypted_value = "")).map convertCookieRow).isEmpty
      then []
      else [SinkEvent.setCookies
        ((rows.filter (fun r => r.encrypted_value = "")).map convertCookieRow)] := by
    simp only [importCookies, rowLoop_nocancel]
    by_cases he : ((rows.filter (fun r => r.encrypted_value = "")).map convertCookieRow).isEmpty
    · simp [he]
    · simp [he, cFalse]
  refine ⟨hdef, ?_, ?_⟩
  · intro r hr henc
    exact List.mem_map_of_mem _ (List.mem_filter.mpr ⟨hr, by simpa using henc⟩)
  · intro out hout e he
    rw [hdef] at hout
    by_cases hemp : ((rows.filter (fun r => r.encrypted_value = "")).map convertCookieRow).isEmpty
    · simp [hemp] at hout
    · simp [hemp] at hout
      subst hout
      obtain ⟨src, hsrc, hee⟩ := List.mem_map.mp he
      rw [List.mem_filter] at hsrc
      refine ⟨by rw [← hee]; rfl, ?_, src, hsrc.1, by simpa using hsrc.2, hee.symm⟩
      rw [← hee]
      exact List.mem_map_of_mem _ hsrc.1

/-- C6 witness: applied to a store with one plaintext and one encrypted
row. -/
theorem C6_witness :
    convertCookieRow cookieRowPlain ∈
      (([cookieRowPlain, cookieRowEncrypted].filter
        (fun r => r.encrypted_value = "")).map convertCookieRow) ∧
    ((convertCookieRow cookieRowPlain).host =
        "*" ++ (convertCookieRow cookieRowPlain).domain ∧
      (convertCookieRow cookieRowPlain).domain ∈
        [cookieRowPlain, cookieRowEncrypted].map CookieRow.host_key ∧
      ∃ src ∈ [cookieRowPlain, cookieRowEncrypted], src.encrypted_value = "" ∧
        convertCookieRow cookieRowPlain = convertCookieRow src) :=
  ⟨(C6_cookie_filter [cookieRowPlain, cookieRowEncrypted] 0).2.1 cookieRowPlain
      (by decide) (by decide),
   (C6_cookie_filter [cookieRowPlain, cookieRowEncrypted] 0).2.2
      [convertCookieRow cookieRowPlain] (by decide)
      (convertCookieRow cookieRowPlain) (by decide)⟩

/-! ## C8 -/

/-- C8: every retrieved credential, autofillable or blacklisted, is
forwarded as its own SetPasswordForm call (one sink event per credential,
no batching), in retrieval order with all autofillable entries before all
blacklisted ones; a failed retrieval call contributes zero records while
the other call still runs. -/
theorem C8_passwords_individual :
    ∀ (af bl : List PasswordForm),
      importPasswords (some { autofillable := some af, blacklisted := some bl }) =
          (af ++ bl).map SinkEvent.setPasswordForm
      ∧ importPasswords (some { autofillable := none, blacklisted := some bl }) =
          bl.map SinkEvent.setPasswordForm
      ∧ importPasswords (some { autofillable := some af, blacklisted := none }) =
          af.map SinkEvent.setPasswordForm
      ∧ importPasswords (some { autofillable := none, blacklisted := none }) = [] := by
  intro af bl
  refine ⟨?_, ?_, ?_, rfl⟩ <;> simp [importPasswords, emitForms_eq_map]

/-! ## C7 -/

/-- C7: two distinct page URLs mapped to one icon id produce a single map
entry whose URL set has 2 elements (a duplicate insert is absorbed by set
semantics), and resolving it yields exactly one FaviconUsageData carrying
that 2-element set; in general a looked-up icon whose stored value is a
valid non-data URL is recorded as-is (favicon_url, no fetch), while a
failed data-URL re-encode or an invalid URL skips exactly that icon,
leaving the remaining map entries to resolve as before. -/
theorem C7_favicon_resolution :
    (importFaviconURLs cFalse [(7, "http://a/"), (7, "http://b/"), (7, "http://a/")] [] 0 =
        ([(7, ["http://a/", "http://b/"])], 3))
    ∧ (loadFaviconData extRemote [(7, "http://icon/")] [(7, ["http://a/", "http://b/"])] =
        [{ favicon_url := "http://icon/", png_data := "",
           urls := ["http://a/", "http://b/"] }])
    ∧ (∀ (ext : ExternalFns) (ft : List (Int × String)) (id : Int) (us : List String)
        (rest : FaviconMap) (u : String), lookupIcon ft id = some u →
        ext.gurlIsValid u = true → ext.gurlIsDataScheme u = false →
        loadFaviconData ext ft ((id, us) :: rest) =
          { favicon_url := u, png_data := "", urls := us } :: loadFaviconData ext ft rest)
    ∧ (∀ (ext : ExternalFns) (ft : List (Int × String)) (id : Int) (us : List String)
        (rest : FaviconMap) (u : String), lookupIcon ft id = some u →
        ext.gurlIsValid u = true → ext.gurlIsDataScheme u = true →
        ext.reencodeFavicon u = none →
        loadFaviconData ext ft ((id, us) :: rest) = loadFaviconData ext ft rest)
    ∧ (∀ (ext : ExternalFns) (ft : List (Int × String)) (id : Int) (us : List String)
        (rest : FaviconMap) (u : String), lookupIcon ft id = some u →
        ext.gurlIsValid u = false →
        loadFaviconData ext ft ((id, us) :: rest) = loadFaviconData ext ft rest) := by
  refine ⟨by decide, by decide, ?_, ?_, ?_⟩
  · intro ext ft id us rest u hl hv hd
    simp [loadFaviconData, hl, hv, hd]
  · intro ext ft id us rest u hl hv hd hre
    by_cases hu : u = ""
    · subst hu
      simp [loadFaviconData, hl, hv, hd]
    · simp [loadFaviconData, hl, hv, hd, hu, hre]
  · intro ext ft id us rest u hl hv
    simp [loadFaviconData, hl, hv]

/-- C7 witness: the remote-URL rule applied to a one-icon table. -/
theorem C7_witness :
    loadFaviconData extRemote [(3, "http://i/")] [(3, ["http://p/"])] =
      [{ favicon_url := "http://i/", png_data := "", urls := ["http://p/"] }] := by
  have h := C7_favicon_resolution.2.2.1 extRemote [(3, "http://i/")] 3 ["http://p/"] []
    "http://i/" (by decide) rfl rfl
  simpa using h

/-! ## C10 -/

def sampleFavDb : FaviconDb :=
  { iconMapping := [(1, "http://p/")], favicons := [(1, "http://icon/")] }

/-- C10: when the Bookmarks file is absent or does not parse as a JSON
dictionary, ImportBookmarks returns before the favicon phase — the trace
is empty, so no favicons are delivered even with a resolvable Favicons
store — while a parseable dictionary without any bookmark roots still
reaches the favicon phase and delivers the resolved icons. -/
theorem C10_bookmarks_gate_favicons :
    (∀ (ext : ExternalFns) (c : Nat → Bool) (favdb : Option FaviconDb) (k : Nat)
        (j : Option JsonValue), (∀ d, j ≠ some (JsonValue.dict d)) →
        importBookmarks ext c j favdb k = some ([], k))
    ∧ (importBookmarks extRemote cFalse (some (JsonValue.dict JsonFields.nil))
        (some sampleFavDb) 0 =
        some ([SinkEvent.setFavicons
          [{ favicon_url := "http://icon/", png_data := "", urls := ["http://p/"] }]], 2)) := by
  constructor
  · intro ext c favdb k j hj
    rcases j with _ | v
    · rfl
    · cases v with
      | dict d => exact absurd rfl (hj d)
      | str s => rfl
      | int n => rfl
      | boolean b => rfl
      | null => rfl
      | list items => rfl
  · decide

/-- C10 witness: the bail-out rule applied to an absent (unparsed)
Bookmarks file next to a resolvable Favicons store. -/
theorem C10_witness :
    importBookmarks extRemote cFalse none (some sampleFavDb) 5 = some ([], 5) :=
  C10_bookmarks_gate_favicons.1 extRemote cFalse (some sampleFavDb) 5 none
    (fun d => by simp)

/-! ## C4 -/

/-- A Bookmarks file whose bookmark_bar holds the bad-date node: the walk
aborts, so StartImport never reaches NotifyEnded. -/
def crashBookmarksJson : JsonValue :=
  .dict (.cons ("roots") (.dict (.cons ("bookmark_bar") c5Tree .nil)) .nil)

def crashProfile : SourceProfile :=
  { historyDb := none, bookmarksJson := some crashBookmarksJson, faviconsDb := none,
    cookiesDb := none, loginDb := none }

def maskFav : ItemMask :=
  { history := false, favorites := true, cookies := false, passwords := false }

/-- C4 counterexample: a favorites-only run over a Bookmarks tree holding
one unparseable date_added: the std::stoll abort escapes StartImport after
NotifyItemStarted(FAVORITES), so NotifyEnded is never signalled — the
claim that "import ended" is signalled exactly once on every run fails. -/
theorem C4_counterexample :
    (startImport extRemote cFalse maskFav crashProfile).1.count SinkEvent.ended = 0 ∧
    (startImport extRemote cFalse maskFav crashProfile).2 = true ∧
    (startImport extRemote cFalse maskFav crashProfile).1 =
      [SinkEvent.started, SinkEvent.itemStarted ImportItem.favorites] := by
  exact ⟨by decide, by decide, by decide⟩

/-- C4 amended: provided the run is not torn down by the bookmark-walk
abort (see the date_added parsing defect), StartImport signals "import
started" first and "import ended" exactly once at the very end; the trace
between them is the concatenation of one segment per category in the fixed
order History, Favorites, Cookies, Passwords, where every segment is
either empty (category skipped: not requested, or flag set at its check)
or itemStarted/itemEnded around pure data deliveries — so a requested
category reached before cancellation gets both signals even with zero
records (signals are unconditional, delivery is not); and if the flag
becomes set (monotonically) by the time the History step has finished,
NotifyItemStarted(FAVORITES) is never signalled while NotifyEnded still is,
exactly once. -/
theorem C4_signal_protocol_amended :
    ∀ (ext : ExternalFns) (c : Nat → Bool) (items : ItemMask) (p : SourceProfile),
      ((startImport ext c items p).2 = false →
        ∃ s1 s2 s3 s4,
          (startImport ext c items p).1 =
            SinkEvent.started :: (s1 ++ s2 ++ s3 ++ s4 ++ [SinkEvent.ended]) ∧
          segOk s1 ImportItem.history ∧ segOk s2 ImportItem.favorites ∧
          segOk s3 ImportItem.cookies ∧ segOk s4 ImportItem.passwords)
      ∧ ((startImport ext c items p).2 = false →
          (startImport ext c items p).1.count SinkEvent.ended = 1)
      ∧ ((∀ i, c i = false) → (startImport ext c items p).2 = false →
          (items.history = true →
            SinkEvent.itemStarted ImportItem.history ∈ (startImport ext c items p).1 ∧
            SinkEvent.itemEnded ImportItem.history ∈ (startImport ext c items p).1) ∧
          (items.favorites = true →
            SinkEvent.itemStarted ImportItem.favorites ∈ (startImport ext c items p).1 ∧
            SinkEvent.itemEnded ImportItem.favorites ∈ (startImport ext c items p).1) ∧
          (items.cookies = true →
            SinkEvent.itemStarted ImportItem.cookies ∈ (startImport ext c items p).1 ∧
            SinkEvent.itemEnded ImportItem.cookies ∈ (startImport ext c items p).1) ∧
          (items.passwords = true →
            SinkEvent.itemStarted ImportItem.passwords ∈ (startImport ext c items p).1 ∧
            SinkEvent.itemEnded ImportItem.passwords ∈ (startImport ext c items p).1))
      ∧ ((∀ i j, i ≤ j → c i = true → c j = true) →
          c ((historyStep c items p 0).2) = true →
          SinkEvent.itemStarted ImportItem.favorites ∉ (startImport ext c items p).1 ∧
          (startImport ext c items p).1.count SinkEvent.ended = 1 ∧
          (startImport ext c items p).2 = false) := by
  intro ext c items p
  by_cases hf : (favoritesStep ext c items p (historyStep c items p 0).2).2.2
  · -- the torn-down case: every part is vacuous or separately established
    have hcr : (startImport ext c items p).2 = true := by
      simp [startImport, hf]
    refine ⟨fun h => absurd hcr (by simp [h]), fun h => absurd hcr (by simp [h]),
      fun _ h => absurd hcr (by simp [h]), ?_⟩
    intro mono hcH
    exfalso
    by_cases hi : items.favorites
    · simp [favoritesStep, hi, hcH] at hf
    · simp [favoritesStep, hi] at hf
  · have htrace : (startImport ext c items p).1 =
        SinkEvent.started ::
          ((historyStep c items p 0).1 ++
            (favoritesStep ext c items p (historyStep c items p 0).2).1 ++
            (cookiesStep c items p
              (favoritesStep ext c items p (historyStep c items p 0).2).2.1).1 ++
            (passwordsStep c items p
              (cookiesStep c items p
                (favoritesStep ext c items p (historyStep c items p 0).2).2.1).2).1 ++
            [SinkEvent.ended]) := by
      simp [startImport, hf]
    have hcrash : (startImport ext c items p).2 = false := by
      simp [startImport, hf]
    have hsegf : segOk (favoritesStep ext c items p (historyStep c items p 0).2).1
        ImportItem.favorites := favoritesStep_segOk (by simpa using hf)
    have n1 : SinkEvent.ended ∉ (historyStep c items p 0).1 :=
      segOk_not_ended historyStep_segOk
    have n2 : SinkEvent.ended ∉
        (favoritesStep ext c items p (historyStep c items p 0).2).1 :=
      segOk_not_ended hsegf
    have n3 : SinkEvent.ended ∉ (cookiesStep c items p
        (favoritesStep ext c items p (historyStep c items p 0).2).2.1).1 :=
      segOk_not_ended cookiesStep_segOk
    have n4 : SinkEvent.ended ∉ (passwordsStep c items p
        (cookiesStep c items p
          (favoritesStep ext c items p (historyStep c items p 0).2).2.1).2).1 :=
      segOk_not_ended passwordsStep_segOk
    have hcount : (startImport ext c items p).1.count SinkEvent.ended = 1 := by
      rw [htrace]
      simp [List.count_cons, List.count_append, List.count_eq_zero.mpr n1,
        List.count_eq_zero.mpr n2, List.count_eq_zero.mpr n3, List.count_eq_zero.mpr n4]
    refine ⟨fun _ => ⟨(historyStep c items p 0).1,
        (favoritesStep ext c items p (historyStep c items p 0).2).1,
        (cookiesStep c items p
          (favoritesStep ext c items p (historyStep c items p 0).2).2.1).1,
        (passwordsStep c items p
          (cookiesStep c items p
            (favoritesStep ext c items p (historyStep c items p 0).2).2.1).2).1,
        htrace, historyStep_segOk, hsegf, cookiesStep_segOk, passwordsStep_segOk⟩,
      fun _ => hcount, ?_, ?_⟩
    · -- both signals for every requested category under a never-set flag
      intro hnc _
      refine ⟨?_, ?_, ?_, ?_⟩
      · intro hi
        have hh : (historyStep c items p 0).1 =
            SinkEvent.itemStarted ImportItem.history ::
              (importHistory c p.historyDb 1).1 ++
              [SinkEvent.itemEnded ImportItem.history] := by
          simp [historyStep, hi, hnc 0]
        rw [htrace, hh]
        constructor <;> simp
      · intro hi
        rcases hb : importBookmarks ext c p.bookmarksJson p.faviconsDb
            ((historyStep c items p 0).2 + 1) with _ | r
        · exfalso
          simp [favoritesStep, hi, hnc ((historyStep c items p 0).2), hb] at hf
        · have hh : (favoritesStep ext c items p (historyStep c items p 0).2).1 =
              SinkEvent.itemStarted ImportItem.favorites :: r.1 ++
                [SinkEvent.itemEnded ImportItem.favorites] := by
            simp [favoritesStep, hi, hnc ((historyStep c items p 0).2), hb]
          rw [htrace, hh]
          constructor <;> simp
      · intro hi
        have hh : (cookiesStep c items p
            (favoritesStep ext c items p (historyStep c items p 0).2).2.1).1 =
            SinkEvent.itemStarted ImportItem.cookies ::
              (importCookies c p.cookiesDb
                ((favoritesStep ext c items p (historyStep c items p 0).2).2.1 + 1)).1 ++
              [SinkEvent.itemEnded ImportItem.cookies] := by
          simp [cookiesStep, hi,
            hnc ((favoritesStep ext c items p (historyStep c items p 0).2).2.1)]
        rw [htrace, hh]
        constructor <;> simp
      · intro hi
        have hh : (passwordsStep c items p
            (cookiesStep c items p
              (favoritesStep ext c items p (historyStep c items p 0).2).2.1).2).1 =
            SinkEvent.itemStarted ImportItem.passwords :: importPasswords p.loginDb ++
              [SinkEvent.itemEnded ImportItem.passwords] := by
          simp [passwordsStep, hi,
            hnc ((cookiesStep c items p
              (favoritesStep ext c items p (historyStep c items p 0).2).2.1).2)]
        rw [htrace, hh]
        constructor <;> simp
    · -- cancellation set once the History step finished
      intro mono hcH
      have hfav1 : (favoritesStep ext c items p (historyStep c items p 0).2).1 = [] := by
        by_cases hi : items.favorites
        · simp [favoritesStep, hi, hcH]
        · simp [favoritesStep, hi]
      have hcC : c ((favoritesStep ext c items p (historyStep c items p 0).2).2.1) = true :=
        mono _ _ favoritesStep_k_le hcH
      have hcook1 : (cookiesStep c items p
          (favoritesStep ext c items p (historyStep c items p 0).2).2.1).1 = [] := by
        by_cases hi : items.cookies
        · simp [cookiesStep, hi, hcC]
        · simp [cookiesStep, hi]
      have hcP : c ((cookiesStep c items p
          (favoritesStep ext c items p (historyStep c items p 0).2).2.1).2) = true :=
        mono _ _ cookiesStep_k_le hcC
      have hpw1 : (passwordsStep c items p
          (cookiesStep c items p
            (favoritesStep ext c items p (historyStep c items p 0).2).2.1).2).1 = [] := by
        by_cases hi : items.passwords
        · simp [passwordsStep, hi, hcP]
        · simp [passwordsStep, hi]
      refine ⟨?_, hcount, hcrash⟩
      rw [htrace, hfav1, hcook1, hpw1]
      intro hmem
      simp only [List.append_nil, List.mem_cons, List.mem_append,
        List.mem_singleton, List.not_mem_nil, or_false] at hmem
      rcases hmem with hmem | hmem | hmem
      · exact SinkEvent.noConfusion hmem
      · exact ImportItem.noConfusion (segOk_itemStarted historyStep_segOk hmem)
      · exact SinkEvent.noConfusion hmem

def emptyProfile : SourceProfile :=
  { historyDb := none, bookmarksJson := none, faviconsDb := none,
    cookiesDb := none, loginDb := none }

def maskAll : ItemMask :=
  { history := true, favorites := true, cookies := true, passwords := true }

/-- C4 witness: the amended theorem applied to an all-requested run over an
empty profile, once under the never-set flag (all four categories signal
both item events around zero records, ended exactly once) and once under a
flag already set before the History check (no favorites signal, ended still
exactly once). -/
theorem C4_witness :
    (∃ s1 s2 s3 s4,
        (startImport extRemote cFalse maskAll emptyProfile).1 =
          SinkEvent.started :: (s1 ++ s2 ++ s3 ++ s4 ++ [SinkEvent.ended]) ∧
        segOk s1 ImportItem.history ∧ segOk s2 ImportItem.favorites ∧
        segOk s3 ImportItem.cookies ∧ segOk s4 ImportItem.passwords) ∧
    (startImport extRemote cFalse maskAll emptyProfile).1.count SinkEvent.ended = 1 ∧
    (SinkEvent.itemStarted ImportItem.history ∈
        (startImport extRemote cFalse maskAll emptyProfile).1 ∧
      SinkEvent.itemEnded ImportItem.history ∈
        (startImport extRemote cFalse maskAll emptyProfile).1) ∧
    (SinkEvent.itemStarted ImportItem.favorites ∉
        (startImport extRemote (cAfter 0) maskAll emptyProfile).1 ∧
      (startImport extRemote (cAfter 0) maskAll emptyProfile).1.count SinkEvent.ended = 1 ∧
      (startImport extRemote (cAfter 0) maskAll emptyProfile).2 = false) :=
  ⟨(C4_signal_protocol_amended extRemote cFalse maskAll emptyProfile).1 (by decide),
   (C4_signal_protocol_amended extRemote cFalse maskAll emptyProfile).2.1 (by decide),
   ((C4_signal_protocol_amended extRemote cFalse maskAll emptyProfile).2.2.1
      (fun _ => rfl) (by decide)).1 (by decide),
   (C4_signal_protocol_amended extRemote (cAfter 0) maskAll emptyProfile).2.2.2
      (fun i j hij hi => by simp [cAfter]) (by decide)⟩
